import Mathlib

/-!
Verification development for the waze_kibris API core:
polyline decoding (`util/utils.go`), websocket fan-out
(`util/websockets/websocket.go`), and the two-tier location snapper
(`internal/http/mapbox/road_snapping.go`).

Go `float64` arithmetic is modelled by exact arithmetic: rationals where a
component only adds, subtracts, multiplies, divides and compares
(polyline accumulators, the websocket proximity test), and real numbers
where trigonometry is involved (haversine distance, perpendicular offsets).
Go `int` is modelled by `Int`/`Nat`; the values reached here (polyline
chunks of realistic encodings, snap radii) stay far below 2^63, so wrapping
is never triggered and is not modelled.
-/

set_option maxHeartbeats 1000000

namespace Util

/-- Embeds `util.Coordinate` (lat/lon in degrees). -/
structure Coordinate where
  lat : ℚ
  lon : ℚ
deriving DecidableEq, Repr

/-- Embeds the inner chunk-reading loop of `DecodeValhallaPolyline6`
(`util/utils.go`): reads bytes, subtracts 63, masks the low 5 bits into the
accumulator at the current shift, and stops when the continuation bit `0x20`
is clear.  Errors on a byte below 63 or when the bytes run out mid-chunk.
`what` is the "latitude"/"longitude" tag used in the Go error message. -/
def parseChunks (what : String) : List Nat → Nat → Nat → Except String (Nat × List Nat)
  | [], _, _ =>
      .error ("polyline decode error: unexpected end of string while decoding " ++ what)
  | b :: rest, shift, acc =>
      if b < 63 then
        .error "polyline decode error: invalid character"
      else
        let byteVal := b - 63
        let acc2 := acc ||| ((byteVal &&& 0x1f) <<< shift)
        if byteVal &&& 0x20 == 0 then
          .ok (acc2, rest)
        else
          parseChunks what rest (shift + 5) acc2

/-- Embeds the sign decoding of `DecodeValhallaPolyline6`: Go computes
`^(chunk >> 1)` when the low bit is set (bitwise complement, i.e. `-x-1`)
and `chunk >> 1` otherwise. -/
def zigzagDecode (chunk : Nat) : Int :=
  if chunk &&& 1 ≠ 0 then -((chunk >>> 1 : Nat) : Int) - 1 else ((chunk >>> 1 : Nat) : Int)

theorem parseChunks_length_lt (what : String) :
    ∀ (l : List Nat) (shift acc v : Nat) (r : List Nat),
      parseChunks what l shift acc = .ok (v, r) → r.length < l.length := by
  intro l
  induction l with
  | nil => intro shift acc v r h; simp [parseChunks] at h
  | cons b rest ih =>
      intro shift acc v r h
      simp only [parseChunks] at h
      split at h
      · exact absurd h (by simp)
      · split at h
        · simp only [Except.ok.injEq, Prod.mk.injEq] at h
          simp [← h.2, List.length_cons, Nat.lt_succ_self]
        · exact Nat.lt_trans (ih _ _ _ _ h) (by simp [List.length_cons, Nat.lt_succ_self])

/-- Embeds the outer loop of `DecodeValhallaPolyline6`: while bytes remain,
decode a latitude chunk and a longitude chunk, zigzag-decode each, add the
deltas to the integer accumulators `lat`/`lon`, and emit the accumulators
divided by `1e6`.  Any inner error aborts the whole decode, as in Go.  The
recursion is structured on a fuel bound; since every iteration consumes at
least one byte, any fuel above the byte count is enough (the theorems carry
`l.length < fuel`), and the fuel-exhausted branch is unreachable from
`DecodeValhallaPolyline6`. -/
def decodeLoop (fuel : Nat) (l : List Nat) (lat lon : Int) : Except String (List Coordinate) :=
  match fuel, l with
  | _, [] => .ok []
  | 0, _ :: _ => .error "polyline decode error: fuel exhausted"
  | fuel + 1, b :: bs =>
    match parseChunks "latitude" (b :: bs) 0 0 with
    | .error e => .error e
    | .ok (latChunk, rest1) =>
      match parseChunks "longitude" rest1 0 0 with
      | .error e => .error e
      | .ok (lonChunk, rest2) =>
        let lat2 := lat + zigzagDecode latChunk
        let lon2 := lon + zigzagDecode lonChunk
        match decodeLoop fuel rest2 lat2 lon2 with
        | .error e => .error e
        | .ok coords => .ok ({ lat := (lat2 : ℚ) / 1000000, lon := (lon2 : ℚ) / 1000000 } :: coords)

/-- The byte sequence of a Go string; the strings involved are ASCII, where
Go bytes and Lean characters coincide. -/
def strBytes (s : String) : List Nat := s.data.map Char.toNat

/-- Embeds `DecodeValhallaPolyline6` (`util/utils.go`), the precision-1e6
polyline decoder.  The final `index != len(encoded)` safeguard in the Go
code is unreachable (the loop consumes bytes one at a time), so the
embedding has no counterpart for it. -/
def DecodeValhallaPolyline6 (encoded : String) : Except String (List Coordinate) :=
  decodeLoop ((strBytes encoded).length + 1) (strBytes encoded) 0 0

/-! Spec-side reformulation of the polyline algorithm, written from the
specification's description: read 5-bit chunks until the continuation bit is
clear, zigzag-decode each assembled value, pair the deltas, and emit running
sums divided by the divisor.  The chunk assembly here composes the high part
recursively (`lo ||| hi <<< 5`) instead of tracking a shift, so agreement
with the code embedding is a genuine refinement statement. -/

/-- Spec-side chunk reader: one variable-length value and the remaining
bytes, `none` on a byte below 63 or when the bytes end mid-chunk. -/
def readChunks : List Nat → Option (Nat × List Nat)
  | [] => none
  | b :: rest =>
      if b < 63 then none
      else
        let byteVal := b - 63
        if byteVal &&& 0x20 == 0 then some (byteVal &&& 0x1f, rest)
        else
          match readChunks rest with
          | none => none
          | some (hi, r) => some ((byteVal &&& 0x1f) ||| (hi <<< 5), r)

theorem readChunks_length_lt :
    ∀ (l : List Nat) (v : Nat) (r : List Nat),
      readChunks l = some (v, r) → r.length < l.length := by
  intro l
  induction l with
  | nil => intro v r h; simp [readChunks] at h
  | cons b rest ih =>
      intro v r h
      simp only [readChunks] at h
      split at h
      · exact absurd h (by simp)
      · split at h
        · simp only [Option.some.injEq, Prod.mk.injEq] at h
          simp [← h.2, List.length_cons, Nat.lt_succ_self]
        · split at h
          · exact absurd h (by simp)
          · rename_i hi r2 hrest
            simp only [Option.some.injEq, Prod.mk.injEq] at h
            exact Nat.lt_trans (h.2 ▸ ih _ _ hrest) (by simp [List.length_cons, Nat.lt_succ_self])

/-- Spec-side pairing pass: the raw latitude/longitude chunk values of each
coordinate, `none` as soon as a chunk is malformed or missing. -/
def specDeltaPairs (fuel : Nat) : List Nat → Option (List (Nat × Nat))
  | [] => some []
  | b :: bs =>
      match fuel with
      | 0 => none
      | fuel + 1 =>
        match readChunks (b :: bs) with
        | none => none
        | some (latChunk, r1) =>
          match readChunks r1 with
          | none => none
          | some (lonChunk, r2) =>
            match specDeltaPairs fuel r2 with
            | none => none
            | some rest => some ((latChunk, lonChunk) :: rest)

/-- Spec-side accumulation: running integer latitude/longitude sums of the
signed deltas, each divided by 1e6. -/
def accumCoords : Int → Int → List (Int × Int) → List Coordinate
  | _, _, [] => []
  | lat, lon, (dlat, dlon) :: rest =>
      let lat2 := lat + dlat
      let lon2 := lon + dlon
      { lat := (lat2 : ℚ) / 1000000, lon := (lon2 : ℚ) / 1000000 } :: accumCoords lat2 lon2 rest

/-- The full spec-side decoder assembled from the specification's words. -/
def specDecode6 (encoded : String) : Option (List Coordinate) :=
  (specDeltaPairs ((strBytes encoded).length + 1) (strBytes encoded)).map
    (fun ps => accumCoords 0 0 (ps.map (fun p => (zigzagDecode p.1, zigzagDecode p.2))))

/-! Error characterization for `DecodeValhallaPolyline6`. -/

/-- The continuation bit of a byte, after the subtraction of 63. -/
def contBit (b : Nat) : Bool := (b - 63) &&& 0x20 != 0

/-- Whether some byte is below the valid range (< 63). -/
def hasInvalidByte (l : List Nat) : Bool := l.any (fun b => b < 63)

/-- Whether the bytes end with the continuation bit still set. -/
def endsMidChunk (l : List Nat) : Bool :=
  match l.getLast? with
  | none => false
  | some b => contBit b

/-- The number of chunk-terminating bytes (continuation bit clear), i.e. the
number of complete variable-length values in a byte list with no invalid
byte. -/
def completeChunkCount (l : List Nat) : Nat := (l.filter (fun b => !contBit b)).length

/-- The amended error condition for the decoder: an invalid byte, a trailing
incomplete chunk, or an odd number of complete values (a latitude delta with
no following longitude delta). -/
def decodeFailsSpec (l : List Nat) : Bool :=
  hasInvalidByte l || endsMidChunk l || (completeChunkCount l % 2 == 1)

/-- Where the first complete chunk ends, if the list starts with a valid
complete chunk. -/
def firstChunkSplit : List Nat → Option (List Nat)
  | [] => none
  | b :: rest =>
      if b < 63 then none
      else if contBit b then firstChunkSplit rest
      else some rest

theorem or_shiftLeft_distrib (a b k : Nat) : (a ||| b) <<< k = (a <<< k) ||| (b <<< k) := by
  apply Nat.eq_of_testBit_eq
  intro i
  simp [Nat.testBit_shiftLeft, Nat.testBit_or, Bool.and_or_distrib_left]

theorem readChunks_parseChunks (what : String) :
    ∀ (l : List Nat) (v : Nat) (r : List Nat), readChunks l = some (v, r) →
      ∀ (shift acc : Nat), parseChunks what l shift acc = .ok (acc ||| (v <<< shift), r) := by
  intro l
  induction l with
  | nil => intro v r h; simp [readChunks] at h
  | cons b rest ih =>
      intro v r h shift acc
      simp only [readChunks] at h
      split at h
      · exact absurd h (by simp)
      · rename_i hb
        split at h
        · rename_i hterm
          simp only [Option.some.injEq, Prod.mk.injEq] at h
          simp [parseChunks, hb, hterm, ← h.1, ← h.2]
        · rename_i hterm
          split at h
          · exact absurd h (by simp)
          · rename_i hi r2 hrest
            simp only [Option.some.injEq, Prod.mk.injEq] at h
            have hrec := ih hi r2 hrest (shift + 5) (acc ||| (((b - 63) &&& 0x1f) <<< shift))
            have hpc : parseChunks what (b :: rest) shift acc
                = parseChunks what rest (shift + 5) (acc ||| (((b - 63) &&& 0x1f) <<< shift)) := by
              simp [parseChunks, hb, hterm]
            rw [hpc, hrec, h.2, ← h.1, or_shiftLeft_distrib, ← Nat.shiftLeft_add,
              Nat.add_comm 5 shift, Nat.or_assoc]

theorem specDeltaPairs_decodeLoop :
    ∀ (fuel : Nat) (l : List Nat), l.length < fuel →
      ∀ (ps : List (Nat × Nat)), specDeltaPairs fuel l = some ps →
        ∀ (lat lon : Int), decodeLoop fuel l lat lon =
          .ok (accumCoords lat lon (ps.map (fun p => (zigzagDecode p.1, zigzagDecode p.2)))) := by
  intro fuel
  induction fuel with
  | zero => intro l hl; exact absurd hl (Nat.not_lt_zero _)
  | succ n ih =>
      intro l hl ps h lat lon
      match l with
      | [] =>
          simp only [specDeltaPairs, Option.some.injEq] at h
          simp [decodeLoop, ← h, accumCoords]
      | b :: bs =>
          simp only [specDeltaPairs] at h
          split at h
          · exact absurd h (by simp)
          · rename_i latChunk r1 h1
            split at h
            · exact absurd h (by simp)
            · rename_i lonChunk r2 h2
              split at h
              · exact absurd h (by simp)
              · rename_i rest hrest
                simp only [Option.some.injEq] at h
                have hlt1 := readChunks_length_lt _ _ _ h1
                have hlt2 := readChunks_length_lt _ _ _ h2
                have hp1 := readChunks_parseChunks "latitude" _ _ _ h1 0 0
                have hp2 := readChunks_parseChunks "longitude" _ _ _ h2 0 0
                rw [Nat.zero_or, Nat.shiftLeft_zero] at hp1 hp2
                simp only [List.length_cons] at hl hlt1
                have hrec := ih r2 (by omega) rest hrest (lat + zigzagDecode latChunk)
                  (lon + zigzagDecode lonChunk)
                simp only [decodeLoop, hp1, hp2, hrec, ← h, List.map_cons, accumCoords]

theorem parseChunks_ok_split (what : String) :
    ∀ (l : List Nat) (shift acc v : Nat) (r : List Nat),
      parseChunks what l shift acc = .ok (v, r) → firstChunkSplit l = some r := by
  intro l
  induction l with
  | nil => intro shift acc v r h; simp [parseChunks] at h
  | cons b rest ih =>
      intro shift acc v r h
      simp only [parseChunks] at h
      split at h
      · exact absurd h (by simp)
      · rename_i hb
        split at h
        · rename_i hterm
          simp only [Except.ok.injEq, Prod.mk.injEq] at h
          simp only [beq_iff_eq] at hterm
          have hc : contBit b = false := by simp [contBit, hterm]
          simp [firstChunkSplit, hb, hc, h.2]
        · rename_i hterm
          have hrec := ih _ _ _ _ h
          have hc : contBit b = true := by
            simp only [beq_iff_eq] at hterm
            simp [contBit, hterm]
          simp [firstChunkSplit, hb, hc, hrec]

theorem parseChunks_error_split (what : String) :
    ∀ (l : List Nat) (shift acc : Nat), firstChunkSplit l = none →
      ∃ e, parseChunks what l shift acc = .error e := by
  intro l
  induction l with
  | nil => intro shift acc _; exact ⟨_, rfl⟩
  | cons b rest ih =>
      intro shift acc h
      simp only [firstChunkSplit] at h
      by_cases hb : b < 63
      · exact ⟨"polyline decode error: invalid character", by simp [parseChunks, hb]⟩
      · rw [if_neg hb] at h
        by_cases hc : contBit b
        · rw [if_pos hc] at h
          obtain ⟨e, he⟩ := ih (shift + 5) (acc ||| (((b - 63) &&& 0x1f) <<< shift)) h
          refine ⟨e, ?_⟩
          have hterm : ¬((b - 63) &&& 0x20 == 0) = true := by
            simp only [contBit] at hc
            simpa using hc
          have hpc : parseChunks what (b :: rest) shift acc
              = parseChunks what rest (shift + 5) (acc ||| (((b - 63) &&& 0x1f) <<< shift)) := by
            simp [parseChunks, hb, hterm]
          rw [hpc]
          exact he
        · rw [if_neg hc] at h
          exact absurd h (by simp)

theorem parseChunks_ok_of_split (what : String) :
    ∀ (l : List Nat) (r : List Nat), firstChunkSplit l = some r →
      ∀ (shift acc : Nat), ∃ v, parseChunks what l shift acc = .ok (v, r) := by
  intro l
  induction l with
  | nil => intro r h; simp [firstChunkSplit] at h
  | cons b rest ih =>
      intro r h shift acc
      simp only [firstChunkSplit] at h
      by_cases hb : b < 63
      · rw [if_pos hb] at h; exact absurd h (by simp)
      · rw [if_neg hb] at h
        by_cases hc : contBit b
        · rw [if_pos hc] at h
          obtain ⟨v, hv⟩ := ih r h (shift + 5) (acc ||| (((b - 63) &&& 0x1f) <<< shift))
          refine ⟨v, ?_⟩
          have hterm : ¬((b - 63) &&& 0x20 == 0) = true := by
            simp only [contBit] at hc
            simpa using hc
          have hpc : parseChunks what (b :: rest) shift acc
              = parseChunks what rest (shift + 5) (acc ||| (((b - 63) &&& 0x1f) <<< shift)) := by
            simp [parseChunks, hb, hterm]
          rw [hpc]; exact hv
        · rw [if_neg hc] at h
          simp only [Option.some.injEq] at h
          have hterm : ((b - 63) &&& 0x20 == 0) = true := by
            simp only [contBit] at hc
            simpa using hc
          exact ⟨acc ||| (((b - 63) &&& 0x1f) <<< shift), by simp [parseChunks, hb, hterm, h]⟩

theorem firstChunkSplit_ne_nil (l : List Nat) (r : List Nat)
    (h : firstChunkSplit l = some r) : l ≠ [] := by
  intro hl; subst hl; simp [firstChunkSplit] at h

theorem endsMidChunk_cons (b : Nat) (rest : List Nat) (h : rest ≠ []) :
    endsMidChunk (b :: rest) = endsMidChunk rest := by
  obtain ⟨c, cs, rfl⟩ := List.exists_cons_of_ne_nil h
  simp [endsMidChunk, List.getLast?_cons_cons]

theorem firstChunkSplit_props :
    ∀ (l r : List Nat), firstChunkSplit l = some r →
      hasInvalidByte l = hasInvalidByte r ∧
      completeChunkCount l = completeChunkCount r + 1 ∧
      (r = [] → endsMidChunk l = false) ∧
      (r ≠ [] → endsMidChunk l = endsMidChunk r) := by
  intro l
  induction l with
  | nil => intro r h; simp [firstChunkSplit] at h
  | cons b rest ih =>
      intro r h
      simp only [firstChunkSplit] at h
      by_cases hb : b < 63
      · rw [if_pos hb] at h; exact absurd h (by simp)
      · rw [if_neg hb] at h
        by_cases hc : contBit b
        · rw [if_pos hc] at h
          obtain ⟨hinv, hcnt, hnil, hne⟩ := ih r h
          have hrest : rest ≠ [] := firstChunkSplit_ne_nil rest r h
          refine ⟨?_, ?_, ?_, ?_⟩
          · simp [hasInvalidByte, hb] at hinv ⊢; exact hinv
          · have hskip : completeChunkCount (b :: rest) = completeChunkCount rest := by
              simp [completeChunkCount, List.filter_cons, hc]
            rw [hskip, hcnt]
          · intro hr; rw [endsMidChunk_cons b rest hrest]; exact hnil hr
          · intro hr; rw [endsMidChunk_cons b rest hrest]; exact hne hr
        · rw [if_neg hc] at h
          simp only [Option.some.injEq] at h
          subst h
          refine ⟨?_, ?_, ?_, ?_⟩
          · simp [hasInvalidByte, hb]
          · simp only [Bool.not_eq_true] at hc
            simp [completeChunkCount, List.filter_cons, hc]
          · intro hr; subst hr
            simp only [Bool.not_eq_true] at hc
            simp [endsMidChunk, hc]
          · intro hr; exact endsMidChunk_cons b _ hr

theorem firstChunkSplit_none_cases :
    ∀ (l : List Nat), firstChunkSplit l = none →
      l = [] ∨ hasInvalidByte l = true ∨ endsMidChunk l = true := by
  intro l
  induction l with
  | nil => intro _; exact Or.inl rfl
  | cons b rest ih =>
      intro h
      simp only [firstChunkSplit] at h
      by_cases hb : b < 63
      · exact Or.inr (Or.inl (by simp [hasInvalidByte, hb]))
      · rw [if_neg hb] at h
        by_cases hc : contBit b
        · rw [if_pos hc] at h
          rcases ih h with hnil | hinv | hmid
          · subst hnil
            exact Or.inr (Or.inr (by simp [endsMidChunk, hc]))
          · exact Or.inr (Or.inl (by simp [hasInvalidByte] at hinv ⊢; exact Or.inr hinv))
          · have hrest : rest ≠ [] := by
              intro hr; subst hr; simp [endsMidChunk] at hmid
            exact Or.inr (Or.inr (by rw [endsMidChunk_cons b rest hrest]; exact hmid))
        · rw [if_neg hc] at h
          exact absurd h (by simp)

theorem decodeLoop_cons_err1 (fuel b : Nat) (bs : List Nat) (e : String) (lat lon : Int)
    (hp1 : parseChunks "latitude" (b :: bs) 0 0 = .error e) :
    decodeLoop (fuel + 1) (b :: bs) lat lon = .error e := by
  simp only [decodeLoop, hp1]

theorem decodeLoop_cons_err2 (fuel b : Nat) (bs r1 : List Nat) (v1 : Nat) (e : String)
    (lat lon : Int)
    (hp1 : parseChunks "latitude" (b :: bs) 0 0 = .ok (v1, r1))
    (hp2 : parseChunks "longitude" r1 0 0 = .error e) :
    decodeLoop (fuel + 1) (b :: bs) lat lon = .error e := by
  simp only [decodeLoop, hp1, hp2]

theorem decodeLoop_cons_ok2 (fuel b : Nat) (bs r1 r2 : List Nat) (v1 v2 : Nat) (lat lon : Int)
    (hp1 : parseChunks "latitude" (b :: bs) 0 0 = .ok (v1, r1))
    (hp2 : parseChunks "longitude" r1 0 0 = .ok (v2, r2)) :
    decodeLoop (fuel + 1) (b :: bs) lat lon =
      match decodeLoop fuel r2 (lat + zigzagDecode v1) (lon + zigzagDecode v2) with
      | .error e => .error e
      | .ok coords =>
          .ok ({ lat := ((lat + zigzagDecode v1 : Int) : ℚ) / 1000000,
                 lon := ((lon + zigzagDecode v2 : Int) : ℚ) / 1000000 } :: coords) := by
  simp only [decodeLoop, hp1, hp2]

theorem decodeLoop_ok_iff :
    ∀ (fuel : Nat) (l : List Nat), l.length < fuel → ∀ (lat lon : Int),
      (∃ cs, decodeLoop fuel l lat lon = .ok cs) ↔ decodeFailsSpec l = false := by
  intro fuel
  induction fuel with
  | zero => intro l hl; exact absurd hl (Nat.not_lt_zero _)
  | succ n ih =>
      intro l hl lat lon
      match l with
      | [] =>
          simp [decodeLoop, decodeFailsSpec, hasInvalidByte, endsMidChunk, completeChunkCount]
      | b :: bs =>
          match hs1 : firstChunkSplit (b :: bs) with
          | none =>
              obtain ⟨e, he⟩ := parseChunks_error_split "latitude" (b :: bs) 0 0 hs1
              rcases firstChunkSplit_none_cases _ hs1 with hnil | hinv | hmid
              · exact absurd hnil (by simp)
              · rw [decodeLoop_cons_err1 _ _ _ _ _ _ he]
                simp [decodeFailsSpec, hinv]
              · rw [decodeLoop_cons_err1 _ _ _ _ _ _ he]
                simp [decodeFailsSpec, hmid]
          | some r1 =>
              obtain ⟨v1, hp1⟩ := parseChunks_ok_of_split "latitude" (b :: bs) r1 hs1 0 0
              obtain ⟨hinv1, hcnt1, hnil1, hne1⟩ := firstChunkSplit_props _ _ hs1
              match hs2 : firstChunkSplit r1 with
              | none =>
                  obtain ⟨e, he⟩ := parseChunks_error_split "longitude" r1 0 0 hs2
                  rw [decodeLoop_cons_err2 _ _ _ _ _ _ _ _ hp1 he]
                  rcases firstChunkSplit_none_cases _ hs2 with hnil | hinv | hmid
                  · subst hnil
                    have hone : completeChunkCount (b :: bs) = 1 := by
                      rw [hcnt1]; simp [completeChunkCount]
                    simp [decodeFailsSpec, hone]
                  · simp [decodeFailsSpec, hinv1, hinv]
                  · have hr1 : r1 ≠ [] := by
                      intro hr; subst hr; simp [endsMidChunk] at hmid
                    simp [decodeFailsSpec, hne1 hr1, hmid]
              | some r2 =>
                  obtain ⟨v2, hp2⟩ := parseChunks_ok_of_split "longitude" r1 r2 hs2 0 0
                  obtain ⟨hinv2, hcnt2, hnil2, hne2⟩ := firstChunkSplit_props _ _ hs2
                  have hr1 : r1 ≠ [] := firstChunkSplit_ne_nil _ _ hs2
                  have hlen1 := parseChunks_length_lt "latitude" (b :: bs) 0 0 v1 r1 hp1
                  have hlen2 := parseChunks_length_lt "longitude" r1 0 0 v2 r2 hp2
                  simp only [List.length_cons] at hl hlen1
                  have hrec := ih r2 (by omega) (lat + zigzagDecode v1) (lon + zigzagDecode v2)
                  rw [decodeLoop_cons_ok2 _ _ _ _ _ _ _ _ _ hp1 hp2]
                  have hspec : decodeFailsSpec (b :: bs) = decodeFailsSpec r2 := by
                    have hmid : endsMidChunk (b :: bs) = endsMidChunk r2 := by
                      by_cases hr2 : r2 = []
                      · subst hr2
                        rw [hne1 hr1, hnil2 rfl]
                        simp [endsMidChunk]
                      · rw [hne1 hr1, hne2 hr2]
                    have hcnt : completeChunkCount (b :: bs) % 2 = completeChunkCount r2 % 2 := by
                      rw [hcnt1, hcnt2]; omega
                    simp [decodeFailsSpec, hinv1, hinv2, hmid, hcnt]
                  rw [hspec, ← hrec]
                  constructor
                  · rintro ⟨cs, hcs⟩
                    revert hcs
                    split
                    · intro hcs; exact absurd hcs (by simp)
                    · rename_i coords hco
                      intro _; exact ⟨coords, hco⟩
                  · rintro ⟨cs, hcs⟩
                    rw [hcs]
                    exact ⟨_, rfl⟩

end Util

namespace Websockets

/-- Embeds `websockets.Client` (`util/websockets`): a connected user.  The
`*websocket.Conn` transport handle is modelled by an identifier `connId`;
coordinates are Go float64, modelled by exact rationals. -/
structure Client where
  connId : Nat
  userID : String
  latitude : ℚ
  longitude : ℚ
deriving DecidableEq, Repr

/-- Embeds the `clients` registry of `websockets.WebSocketManager` (the map
from connection handles to clients, keyed here by `connId`). -/
structure WebSocketManager where
  clients : List Client
deriving DecidableEq, Repr

/-- Embeds `isNearby` (`util/websockets/websocket.go`): the planar
squared-distance proximity test. -/
def isNearby (userLat userLon reportLat reportLon radius : ℚ) : Bool :=
  (userLat - reportLat) * (userLat - reportLat)
      + (userLon - reportLon) * (userLon - reportLon) ≤ radius * radius

/-- Embeds `BroadcastReportUpdate` (`util/websockets/websocket.go`): under
the mutex, write the report to every registered client passing `isNearby`.
The Go code discards `WriteMessage`'s error here, so the registry is
returned unchanged whatever `writeOk` (the transport write outcome per
connection) says; the second component lists the connections written to. -/
def BroadcastReportUpdate (writeOk : Nat → Bool) (manager : WebSocketManager)
    (reportLat reportLon radius : ℚ) : WebSocketManager × List Nat :=
  (manager,
    (manager.clients.filter
        (fun c => isNearby c.latitude c.longitude reportLat reportLon radius)).map
      (fun c => c.connId))

/-- Embeds the `broadcast` case of the `Run` control loop
(`util/websockets/websocket.go`): write the message to every client; a
client whose write fails is closed and deleted from the registry.  The fold
mirrors the Go loop, which mutates the map while ranging over it; the second
component lists the connections written to (every client is attempted). -/
def runBroadcastCase (writeOk : Nat → Bool) (manager : WebSocketManager) :
    WebSocketManager × List Nat :=
  (manager.clients.foldl
      (fun st c =>
        if writeOk c.connId then st
        else { clients := st.clients.filter (fun c2 => c2.connId ≠ c.connId) })
      manager,
    manager.clients.map (fun c => c.connId))

theorem runBroadcastCase_foldl (writeOk : Nat → Bool) :
    ∀ (l : List Client) (st : WebSocketManager),
      (l.foldl
          (fun st c =>
            if writeOk c.connId then st
            else { clients := st.clients.filter (fun c2 => c2.connId ≠ c.connId) })
          st).clients
        = st.clients.filter (fun c2 => l.all (fun c => writeOk c.connId || c2.connId ≠ c.connId)) := by
  intro l
  induction l with
  | nil => intro st; simp
  | cons c cs ih =>
      intro st
      simp only [List.foldl_cons]
      by_cases hw : writeOk c.connId
      · rw [if_pos hw, ih]
        congr 1
        funext c2
        simp [hw]
      · have hw2 : writeOk c.connId = false := by simpa using hw
        rw [if_neg hw, ih, List.filter_filter]
        congr 1
        funext c2
        simp [List.all_cons, hw2, Bool.and_comm]

theorem runBroadcastCase_clients (writeOk : Nat → Bool) (manager : WebSocketManager) :
    (runBroadcastCase writeOk manager).1.clients
      = manager.clients.filter (fun c => writeOk c.connId) := by
  rw [runBroadcastCase, runBroadcastCase_foldl]
  apply List.filter_congr
  intro c2 hc2
  by_cases hw : writeOk c2.connId
  · rw [hw, List.all_eq_true]
    intro c _
    by_cases hwc : writeOk c.connId
    · simp [hwc]
    · have hne : c2.connId ≠ c.connId := by
        intro hid
        exact hwc (hid ▸ hw)
      simp [hne]
  · have hw2 : writeOk c2.connId = false := by simpa using hw
    rw [hw2, List.all_eq_false]
    exact ⟨c2, hc2, by simp [hw2]⟩

end Websockets

namespace Mapbox

noncomputable section

open scoped Classical

/-- Embeds `mapbox.LocationPoint` (`road_snapping.go`): a GPS coordinate
with the optional metadata the snapper copies around.  Go float64 values
are modelled by exact reals; the `*time.Time` timestamp is an opaque
optional value. -/
structure LocationPoint where
  latitude : ℝ
  longitude : ℝ
  timestamp : Option ℤ := none
  accuracy : ℝ := 0
  heading : ℝ := 0

/-- Embeds `mapbox.LineString` (`mapbox.go`): the route geometry, a list of
`[longitude, latitude]` coordinate arrays. -/
structure LineString where
  coordinates : List (List ℝ)

/-- Embeds `mapbox.LocationSnapRequest` (`road_snapping.go`).  Zero values
of the Go struct are the defaults. -/
structure LocationSnapRequest where
  locations : List LocationPoint
  profile : String := ""
  routeGeometry : Option LineString := none
  snapRadius : ℤ := 0
  oppositeSide : Bool := false

/-- Embeds `mapbox.SnappedLocation` (`road_snapping.go`). -/
structure SnappedLocation where
  original : LocationPoint
  snapped : LocationPoint
  snapDistance : ℝ
  onRoute : Bool

/-- Embeds `mapbox.LocationSnapResponse` (`road_snapping.go`). -/
structure LocationSnapResponse where
  snappedLocations : List SnappedLocation
  snapType : String
  confidence : ℝ
  message : String := ""

/-- Embeds `mapbox.Matching` (`mapbox.go`), restricted to the field the
snapper reads. -/
structure Matching where
  confidence : ℝ

/-- Embeds `mapbox.Tracepoint` (`mapbox.go`), restricted to the field the
snapper reads: `location` is the `[longitude, latitude]` pair of the matched
point, `none` when the tracepoint is null / its location is nil. -/
structure Tracepoint where
  location : Option (ℝ × ℝ)

/-- Embeds `mapbox.MapMatchingResponse` (`mapbox.go`). -/
structure MapMatchingResponse where
  matchings : List Matching
  tracepoints : List Tracepoint
  code : String

/-- Go's `math.Atan2`, written out by cases over the signs of the
arguments; only the everywhere-defined total-function fragment matters
here (the snapper calls it on non-negative square roots). -/
def atan2 (y x : ℝ) : ℝ :=
  if 0 < x then Real.arctan (y / x)
  else if x < 0 ∧ 0 ≤ y then Real.arctan (y / x) + Real.pi
  else if x < 0 ∧ y < 0 then Real.arctan (y / x) - Real.pi
  else if x = 0 ∧ 0 < y then Real.pi / 2
  else if x = 0 ∧ y < 0 then -(Real.pi / 2)
  else 0

/-- The `a` intermediate of `calculateDistance` (`road_snapping.go`): the
haversine of the central angle. -/
def haversineA (lat1 lng1 lat2 lng2 : ℝ) : ℝ :=
  Real.sin ((lat2 - lat1) * Real.pi / 180 / 2) * Real.sin ((lat2 - lat1) * Real.pi / 180 / 2)
    + Real.cos (lat1 * Real.pi / 180) * Real.cos (lat2 * Real.pi / 180)
      * Real.sin ((lng2 - lng1) * Real.pi / 180 / 2) * Real.sin ((lng2 - lng1) * Real.pi / 180 / 2)

/-- Embeds `calculateDistance` (`road_snapping.go`): the haversine great-
circle distance with mean Earth radius `R = 6371000` metres. -/
def calculateDistance (lat1 lng1 lat2 lng2 : ℝ) : ℝ :=
  6371000 * (2 * atan2 (Real.sqrt (haversineA lat1 lng1 lat2 lng2))
    (Real.sqrt (1 - haversineA lat1 lng1 lat2 lng2)))

/-- Embeds `calculateRouteSnapConfidence` (`road_snapping.go`): 0 beyond
the radius, otherwise linear decay from 1 at distance 0. -/
def calculateRouteSnapConfidence (distance : ℝ) (maxRadius : ℤ) : ℝ :=
  if (maxRadius : ℝ) < distance then 0 else 1 - distance / (maxRadius : ℝ)

/-- The loop body of `findNearestPointOnRoute` (`road_snapping.go`): walk
the route coordinates, skipping entries shorter than 2 (as the Go
`len(coord) >= 2` guard does), keeping the first strictly-nearest vertex.
`none` stands for Go's initial `math.Inf(1)` distance, which every real
distance beats. -/
def nearestFold (loc : LocationPoint) : List (List ℝ) →
    Option (LocationPoint × ℝ) → Option (LocationPoint × ℝ)
  | [], best => best
  | coord :: rest, best =>
      match coord with
      | lng :: lat :: _ =>
          let d := calculateDistance loc.latitude loc.longitude lat lng
          let cand : LocationPoint :=
            { latitude := lat, longitude := lng, timestamp := loc.timestamp,
              accuracy := loc.accuracy, heading := loc.heading }
          let best2 :=
            match best with
            | none => some (cand, d)
            | some (p, dmin) => if d < dmin then some (cand, d) else some (p, dmin)
          nearestFold loc rest best2
      | _ => nearestFold loc rest best

/-- Embeds `findNearestPointOnRoute` (`road_snapping.go`).  When the route
has no usable vertex the Go code returns `(location, math.Inf(1))`; `ℝ` has
no infinity, so that dead branch (never reached by `SnapLocationToRoad`,
which gates tier 1 on a non-empty geometry, and excluded by hypothesis in
every theorem below that touches distances) returns distance 0 instead. -/
def findNearestPointOnRoute (loc : LocationPoint) (route : LineString) :
    LocationPoint × ℝ :=
  match nearestFold loc route.coordinates none with
  | some (p, d) => (p, d)
  | none => (loc, 0)

/-- Embeds `snapToRoute` (`road_snapping.go`): snap every input point to
the nearest route vertex, sum the per-point confidences, and report their
mean.  (The Go single-pass loop is split into the standard map/sum form.) -/
def snapToRoute (req : LocationSnapRequest) (rg : LineString) : LocationSnapResponse :=
  let entries := req.locations.map (fun location =>
    let nd := findNearestPointOnRoute location rg
    { original := location, snapped := nd.1, snapDistance := nd.2,
      onRoute := decide (nd.2 ≤ (req.snapRadius : ℝ)) : SnappedLocation })
  let totalConfidence := (req.locations.map (fun location =>
    calculateRouteSnapConfidence (findNearestPointOnRoute location rg).2 req.snapRadius)).sum
  let confidence := totalConfidence / (req.locations.length : ℝ)
  { snappedLocations := entries, snapType := "route", confidence := confidence,
    message := if confidence < 0.3 then "Low confidence route snapping - consider road snapping" else "" }

/-- Embeds `processMapMatchingResponse` (`road_snapping.go`): mean of the
positive matching confidences (0 when none), and per input index the
tracepoint's location when present (with haversine snap distance), the
original point otherwise. -/
def processMapMatchingResponse (originalLocations : List LocationPoint)
    (resp : MapMatchingResponse) : LocationSnapResponse :=
  let valid := resp.matchings.filter (fun m => 0 < m.confidence)
  let confidence :=
    if 0 < valid.length then (valid.map (fun m => m.confidence)).sum / (valid.length : ℝ) else 0
  let snappedLocations := originalLocations.enum.map (fun pr =>
    let original := pr.2
    match resp.tracepoints[pr.1]? with
    | some tp =>
        match tp.location with
        | some loctuple =>
            let snapped : LocationPoint :=
              { latitude := loctuple.2, longitude := loctuple.1,
                timestamp := original.timestamp, accuracy := original.accuracy,
                heading := original.heading }
            { original := original, snapped := snapped,
              snapDistance := calculateDistance original.latitude original.longitude
                loctuple.2 loctuple.1,
              onRoute := true : SnappedLocation }
        | none =>
            { original := original, snapped := original, snapDistance := 0,
              onRoute := false : SnappedLocation }
    | none =>
        { original := original, snapped := original, snapDistance := 0,
          onRoute := false : SnappedLocation })
  { snappedLocations := snappedLocations, snapType := "road", confidence := confidence }

/-- Embeds `snapToRoadNetwork` (`road_snapping.go`).  The HTTP exchange
with the Mapbox Map Matching API (URL building, request execution, JSON
decoding) is summarized by the `fetch` parameter: `.error` for a transport
or HTTP-status failure, `.ok resp` for a decoded response.  A response code
other than "Ok" is rejected as in the Go code; otherwise the response is
processed locally. -/
def snapToRoadNetwork (fetch : Except String MapMatchingResponse)
    (req : LocationSnapRequest) : Except String LocationSnapResponse :=
  match fetch with
  | .error e => .error e
  | .ok resp =>
      if resp.code ≠ "Ok" then .error ("mapbox API returned error: " ++ resp.code)
      else .ok (processMapMatchingResponse req.locations resp)

/-- Embeds `adjustForOppositeSide` (`road_snapping.go`): every snapped
location whose original heading is nonzero is displaced by a fixed 15 m
offset perpendicular to the heading (heading + 90°, wrapped at 360), using
the planar degree approximation (1° latitude = 111111 m, longitude scaled
by cos latitude), and its snap distance grows by the 15 m offset. -/
def adjustForOppositeSide (response : LocationSnapResponse) : LocationSnapResponse :=
  { response with
    snappedLocations := response.snappedLocations.map (fun sl =>
      if sl.original.heading ≠ 0 then
        let offsetDistance : ℝ := 15
        let perpHeading0 := sl.original.heading + 90
        let perpHeading := if 360 ≤ perpHeading0 then perpHeading0 - 360 else perpHeading0
        let headingRad := perpHeading * Real.pi / 180
        let latOffset := offsetDistance * Real.cos headingRad / 111111
        let lngOffset := offsetDistance * Real.sin headingRad
          / (111111 * Real.cos (sl.snapped.latitude * Real.pi / 180))
        { sl with
          snapped := { sl.snapped with
            latitude := sl.snapped.latitude + latOffset,
            longitude := sl.snapped.longitude + lngOffset },
          snapDistance := sl.snapDistance + offsetDistance }
      else sl),
    message := "Adjusted for opposite side placement" }

/-- The default-filling prologue of `SnapLocationToRoad`: profile
"driving" when empty, snap radius 25 when zero. -/
def setDefaults (req : LocationSnapRequest) : LocationSnapRequest :=
  { req with
    profile := if req.profile = "" then "driving" else req.profile,
    snapRadius := if req.snapRadius = 0 then 25 else req.snapRadius }

/-- Strategies 2 and 3 of `SnapLocationToRoad` (`road_snapping.go`): road
snapping through the map-matching collaborator, wrapped errors, the "road"
snap type, and the opposite-side adjustment when requested. -/
def roadFallback (fetch : Except String MapMatchingResponse)
    (req : LocationSnapRequest) : Except String LocationSnapResponse :=
  match snapToRoadNetwork fetch req with
  | .error e => .error ("road snapping failed: " ++ e)
  | .ok resp =>
      let resp2 := { resp with snapType := "road" }
      .ok (if req.oppositeSide then adjustForOppositeSide resp2 else resp2)

/-- Embeds `SnapLocationToRoad` (`road_snapping.go`): reject a missing API
key or an empty location list, fill defaults, try route snapping when a
non-empty route geometry is attached and keep it only above the 0.6
confidence gate (the Go test is strict: `response.Confidence > 0.6`), and
otherwise fall back to road snapping.  `apiKey` embeds `mc.APIKey`; `fetch`
stands for the (unconsulted-unless-needed) map-matching exchange. -/
def SnapLocationToRoad (apiKey : String) (fetch : Except String MapMatchingResponse)
    (req : LocationSnapRequest) : Except String LocationSnapResponse :=
  if apiKey = "" then .error "mapbox API key is not set"
  else if req.locations = [] then .error "no locations provided"
  else
    let req2 := setDefaults req
    match req2.routeGeometry with
    | some rg =>
        if 0 < rg.coordinates.length then
          let response := snapToRoute req2 rg
          if 0.6 < response.confidence then .ok { response with snapType := "route" }
          else roadFallback fetch req2
        else roadFallback fetch req2
    | none => roadFallback fetch req2

theorem atan2_zero_one : atan2 0 1 = 0 := by
  rw [atan2, if_pos zero_lt_one]
  simp [Real.arctan_zero]

theorem atan2_nonneg (y x : ℝ) (hy : 0 ≤ y) : 0 ≤ atan2 y x := by
  rw [atan2]
  split_ifs with h1 h2 h3 h4 h5
  · have : (0 : ℝ) ≤ y / x := div_nonneg hy h1.le
    calc (0 : ℝ) = Real.arctan 0 := Real.arctan_zero.symm
    _ ≤ Real.arctan (y / x) := Real.arctan_strictMono.monotone this
  · have := Real.neg_pi_div_two_lt_arctan (y / x)
    have := Real.pi_pos
    linarith
  · exact absurd h3.2 (not_lt.mpr hy)
  · have := Real.pi_pos
    linarith
  · exact absurd h5.2 (not_lt.mpr hy)
  · exact le_refl 0

theorem haversineA_self (lat lng : ℝ) : haversineA lat lng lat lng = 0 := by
  simp [haversineA]

theorem calculateDistance_self (lat lng : ℝ) : calculateDistance lat lng lat lng = 0 := by
  rw [calculateDistance, haversineA_self, Real.sqrt_zero]
  norm_num [atan2_zero_one]

theorem sin_sub_swap (x y : ℝ) :
    Real.sin ((x - y) * Real.pi / 180 / 2) = -Real.sin ((y - x) * Real.pi / 180 / 2) := by
  have h : (x - y) * Real.pi / 180 / 2 = -((y - x) * Real.pi / 180 / 2) := by ring
  rw [h, Real.sin_neg]

theorem haversineA_symm (lat1 lng1 lat2 lng2 : ℝ) :
    haversineA lat2 lng2 lat1 lng1 = haversineA lat1 lng1 lat2 lng2 := by
  rw [haversineA, haversineA, sin_sub_swap lat1 lat2, sin_sub_swap lng1 lng2]
  ring

theorem calculateDistance_symm (lat1 lng1 lat2 lng2 : ℝ) :
    calculateDistance lat2 lng2 lat1 lng1 = calculateDistance lat1 lng1 lat2 lng2 := by
  rw [calculateDistance, calculateDistance, haversineA_symm]

theorem calculateDistance_nonneg (lat1 lng1 lat2 lng2 : ℝ) :
    0 ≤ calculateDistance lat1 lng1 lat2 lng2 := by
  rw [calculateDistance]
  have h := atan2_nonneg (Real.sqrt (haversineA lat1 lng1 lat2 lng2))
    (Real.sqrt (1 - haversineA lat1 lng1 lat2 lng2)) (Real.sqrt_nonneg _)
  positivity

/-- The vertices of a route geometry that pass the Go `len(coord) >= 2`
guard, as (longitude, latitude) pairs. -/
def validVertices (rg : LineString) : List (ℝ × ℝ) :=
  rg.coordinates.filterMap (fun c =>
    match c with
    | lng :: lat :: _ => some (lng, lat)
    | _ => none)

/-- The haversine distances from a point to each usable route vertex. -/
def vertexDistances (loc : LocationPoint) (rg : LineString) : List ℝ :=
  (validVertices rg).map (fun v => calculateDistance loc.latitude loc.longitude v.2 v.1)

/-- The minimum haversine distance from a point to the route's vertices
(0 for a route with no usable vertex; such routes are excluded wherever
this matters). -/
def minRouteDistance (loc : LocationPoint) (rg : LineString) : ℝ :=
  match vertexDistances loc rg with
  | [] => 0
  | d :: ds => ds.foldl min d

theorem foldl_min_mem : ∀ (ds : List ℝ) (d : ℝ), ds.foldl min d ∈ d :: ds := by
  intro ds
  induction ds with
  | nil => intro d; simp
  | cons d2 ds ih =>
      intro d
      rw [List.foldl_cons]
      rcases List.mem_cons.mp (ih (min d d2)) with hm | hm
      · rcases min_choice d d2 with h | h
        · rw [hm, h]; simp
        · rw [hm, h]; simp
      · simp [List.mem_cons, hm]

theorem foldl_min_le : ∀ (ds : List ℝ) (d x : ℝ), x ∈ d :: ds → ds.foldl min d ≤ x := by
  intro ds
  induction ds with
  | nil =>
      intro d x hx
      rw [List.mem_singleton] at hx
      rw [List.foldl_nil, hx]
  | cons d2 ds ih =>
      intro d x hx
      rw [List.foldl_cons]
      have hle : ds.foldl min (min d d2) ≤ min d d2 := ih (min d d2) (min d d2) (by simp)
      rcases List.mem_cons.mp hx with h | h
      · rw [h]
        exact le_trans hle (min_le_left d d2)
      · rcases List.mem_cons.mp h with h2 | h2
        · rw [h2]
          exact le_trans hle (min_le_right d d2)
        · exact ih (min d d2) x (List.mem_cons_of_mem _ h2)

theorem nearestFold_some :
    ∀ (coords : List (List ℝ)) (loc : LocationPoint) (p0 : LocationPoint) (d0 : ℝ),
      ∃ p, nearestFold loc coords (some (p0, d0))
        = some (p, (vertexDistances loc ⟨coords⟩).foldl min d0) := by
  intro coords
  induction coords with
  | nil => intro loc p0 d0; exact ⟨p0, by simp [nearestFold, vertexDistances, validVertices]⟩
  | cons c rest ih =>
      intro loc p0 d0
      match c with
      | [] =>
          obtain ⟨p, hp⟩ := ih loc p0 d0
          exact ⟨p, by simpa [nearestFold, vertexDistances, validVertices] using hp⟩
      | [lng] =>
          obtain ⟨p, hp⟩ := ih loc p0 d0
          exact ⟨p, by simpa [nearestFold, vertexDistances, validVertices] using hp⟩
      | lng :: lat :: c2 =>
          have hdist : vertexDistances loc ⟨(lng :: lat :: c2) :: rest⟩
              = calculateDistance loc.latitude loc.longitude lat lng :: vertexDistances loc ⟨rest⟩ := by
            simp [vertexDistances, validVertices]
          have hstep : nearestFold loc ((lng :: lat :: c2) :: rest) (some (p0, d0))
              = nearestFold loc rest
                  (if calculateDistance loc.latitude loc.longitude lat lng < d0
                   then some ({ latitude := lat, longitude := lng, timestamp := loc.timestamp,
                                accuracy := loc.accuracy, heading := loc.heading },
                              calculateDistance loc.latitude loc.longitude lat lng)
                   else some (p0, d0)) := by
            simp [nearestFold]
          by_cases hd : calculateDistance loc.latitude loc.longitude lat lng < d0
          · obtain ⟨p, hp⟩ := ih loc
              { latitude := lat, longitude := lng, timestamp := loc.timestamp,
                accuracy := loc.accuracy, heading := loc.heading }
              (calculateDistance loc.latitude loc.longitude lat lng)
            refine ⟨p, ?_⟩
            rw [hstep, if_pos hd, hp, hdist, List.foldl_cons, min_eq_right hd.le]
          · obtain ⟨p, hp⟩ := ih loc p0 d0
            refine ⟨p, ?_⟩
            rw [hstep, if_neg hd, hp, hdist, List.foldl_cons, min_eq_left (not_lt.mp hd)]

theorem nearestFold_none :
    ∀ (coords : List (List ℝ)) (loc : LocationPoint), validVertices ⟨coords⟩ ≠ [] →
      ∃ p, nearestFold loc coords none = some (p, minRouteDistance loc ⟨coords⟩) := by
  intro coords
  induction coords with
  | nil => intro loc h; simp [validVertices] at h
  | cons c rest ih =>
      intro loc h
      match c with
      | [] =>
          have h2 : validVertices ⟨rest⟩ ≠ [] := by simpa [validVertices] using h
          obtain ⟨p, hp⟩ := ih loc h2
          refine ⟨p, ?_⟩
          have : minRouteDistance loc ⟨[] :: rest⟩ = minRouteDistance loc ⟨rest⟩ := by
            simp [minRouteDistance, vertexDistances, validVertices]
          rw [this]
          simpa [nearestFold] using hp
      | [lng] =>
          have h2 : validVertices ⟨rest⟩ ≠ [] := by simpa [validVertices] using h
          obtain ⟨p, hp⟩ := ih loc h2
          refine ⟨p, ?_⟩
          have : minRouteDistance loc ⟨[lng] :: rest⟩ = minRouteDistance loc ⟨rest⟩ := by
            simp [minRouteDistance, vertexDistances, validVertices]
          rw [this]
          simpa [nearestFold] using hp
      | lng :: lat :: c2 =>
          have hstep : nearestFold loc ((lng :: lat :: c2) :: rest) none
              = nearestFold loc rest
                  (some ({ latitude := lat, longitude := lng, timestamp := loc.timestamp,
                           accuracy := loc.accuracy, heading := loc.heading },
                         calculateDistance loc.latitude loc.longitude lat lng)) := by
            simp [nearestFold]
          obtain ⟨p, hp⟩ := nearestFold_some rest loc
            { latitude := lat, longitude := lng, timestamp := loc.timestamp,
              accuracy := loc.accuracy, heading := loc.heading }
            (calculateDistance loc.latitude loc.longitude lat lng)
          refine ⟨p, ?_⟩
          rw [hstep, hp]
          have : minRouteDistance loc ⟨(lng :: lat :: c2) :: rest⟩
              = (vertexDistances loc ⟨rest⟩).foldl min
                  (calculateDistance loc.latitude loc.longitude lat lng) := by
            simp [minRouteDistance, vertexDistances, validVertices]
          rw [this]

theorem findNearest_snd (loc : LocationPoint) (rg : LineString)
    (h : validVertices rg ≠ []) :
    (findNearestPointOnRoute loc rg).2 = minRouteDistance loc rg := by
  obtain ⟨p, hp⟩ := nearestFold_none rg.coordinates loc (by
    cases rg
    simpa using h)
  cases rg
  rw [findNearestPointOnRoute, hp]

theorem minRouteDistance_mem (loc : LocationPoint) (rg : LineString)
    (h : validVertices rg ≠ []) :
    minRouteDistance loc rg ∈ vertexDistances loc rg := by
  rw [minRouteDistance]
  have hne : vertexDistances loc rg ≠ [] := by
    simpa [vertexDistances] using h
  match hv : vertexDistances loc rg with
  | [] => exact absurd hv hne
  | d :: ds =>
      have := foldl_min_mem ds d
      rw [← hv] at this ⊢
      rw [hv] at this ⊢
      exact this

theorem minRouteDistance_le (loc : LocationPoint) (rg : LineString)
    (x : ℝ) (hx : x ∈ vertexDistances loc rg) :
    minRouteDistance loc rg ≤ x := by
  rw [minRouteDistance]
  match hv : vertexDistances loc rg with
  | [] => rw [hv] at hx; exact absurd hx (by simp)
  | d :: ds =>
      rw [hv] at hx
      exact foldl_min_le ds d x hx

theorem minRouteDistance_nonneg (loc : LocationPoint) (rg : LineString)
    (h : validVertices rg ≠ []) : 0 ≤ minRouteDistance loc rg := by
  have hmem := minRouteDistance_mem loc rg h
  rw [vertexDistances] at hmem
  obtain ⟨v, _, hv⟩ := List.mem_map.mp hmem
  rw [← hv]
  exact calculateDistance_nonneg _ _ _ _

theorem calculateRouteSnapConfidence_eq_max (d : ℝ) (r : ℤ)
    (hd : 0 ≤ d) (hr : 0 < r) :
    calculateRouteSnapConfidence d r = max 0 (1 - d / (r : ℝ)) := by
  have hr2 : (0 : ℝ) < (r : ℝ) := by exact_mod_cast hr
  rw [calculateRouteSnapConfidence]
  split_ifs with h
  · symm
    rw [max_eq_left]
    have : 1 < d / (r : ℝ) := (one_lt_div hr2).mpr h
    linarith
  · symm
    rw [max_eq_right]
    have : d / (r : ℝ) ≤ 1 := (div_le_one hr2).mpr (not_lt.mp h)
    linarith

theorem atan2_diag (s : ℝ) (hs : 0 < s) : atan2 s s = Real.pi / 4 := by
  rw [atan2, if_pos hs, div_self (ne_of_gt hs), Real.arctan_one]

theorem haversineA_quarter : haversineA 0 0 0 90 = 1 / 2 := by
  rw [haversineA]
  have h1 : ((90 : ℝ) - 0) * Real.pi / 180 / 2 = Real.pi / 4 := by ring
  have h2 : ((0 : ℝ) - 0) * Real.pi / 180 / 2 = 0 := by ring
  have h3 : (0 : ℝ) * Real.pi / 180 = 0 := by ring
  rw [h1, h2, h3, Real.sin_zero, Real.sin_pi_div_four, Real.cos_zero]
  field_simp

theorem calculateDistance_quarter : calculateDistance 0 0 0 90 = 6371000 * Real.pi / 2 := by
  rw [calculateDistance, haversineA_quarter]
  have h1 : (1 : ℝ) - 1 / 2 = 1 / 2 := by norm_num
  rw [h1, atan2_diag _ (Real.sqrt_pos.mpr (by norm_num))]
  ring

theorem calculateDistance_quarter_rev : calculateDistance 0 90 0 0 = 6371000 * Real.pi / 2 := by
  rw [calculateDistance_symm 0 0 0 90, calculateDistance_quarter]

theorem quarter_gt_25 : (25 : ℝ) < 6371000 * Real.pi / 2 := by
  have h := Real.pi_gt_three
  nlinarith

end

end Mapbox

/-! ## Claim theorems -/

namespace Util

/-- C10: decoding the empty string with the precision-1e6 polyline decoder
succeeds and returns the empty coordinate sequence with no error. -/
theorem decode_empty_string_ok : DecodeValhallaPolyline6 "" = .ok [] := rfl

/-- Counterexample to C7 as stated: the input "A" contains no byte below 63
and its final byte has the continuation bit clear, yet the decoder returns
a decode error (a complete latitude delta with no following longitude). -/
theorem decode_error_beyond_claim_counterexample :
    (∃ e, DecodeValhallaPolyline6 "A" = .error e)
    ∧ hasInvalidByte (strBytes "A") = false
    ∧ endsMidChunk (strBytes "A") = false := by
  refine ⟨⟨"polyline decode error: unexpected end of string while decoding longitude", ?_⟩, ?_, ?_⟩
  · rfl
  · rfl
  · rfl

/-- C7 (amended): `DecodeValhallaPolyline6` returns a decode error exactly
when the input contains a byte below 63, or ends mid-chunk (continuation
bit set on the final byte consumed), or holds an odd number of complete
chunk values (a latitude delta whose longitude delta is missing); on every
other input it succeeds. -/
theorem decode_error_characterization :
    ∀ (s : String),
      (∃ e, DecodeValhallaPolyline6 s = .error e)
        ↔ decodeFailsSpec (strBytes s) = true := by
  intro s
  have h := decodeLoop_ok_iff ((strBytes s).length + 1) (strBytes s) (by omega) 0 0
  rw [DecodeValhallaPolyline6]
  cases hd : decodeLoop ((strBytes s).length + 1) (strBytes s) 0 0 with
  | error e =>
      have hne : ¬∃ cs, decodeLoop ((strBytes s).length + 1) (strBytes s) 0 0 = Except.ok cs := by
        rintro ⟨cs, hcs⟩
        rw [hd] at hcs
        exact absurd hcs (by simp)
      have hspec : decodeFailsSpec (strBytes s) = true := by
        cases hfs : decodeFailsSpec (strBytes s)
        · exact absurd (h.mpr hfs) hne
        · rfl
      simp [hd, hspec]
  | ok cs =>
      have hspec := h.mp ⟨cs, hd⟩
      simp [hd, hspec]

/-- C6: on every well-formed input (one the spec-side algorithm decodes),
`DecodeValhallaPolyline6` returns exactly the coordinate sequence produced
by the spec's algorithm — 5-bit chunks to a terminator, zigzag decoding,
running integer accumulators, division by 1e6 — and decoding a fixed known
string (the head of the repository's own test vector) reproduces its
coordinate sequence exactly. -/
theorem polyline6_refines_spec :
    (∀ (s : String) (cs : List Coordinate),
        specDecode6 s = some cs → DecodeValhallaPolyline6 s = .ok cs)
    ∧ DecodeValhallaPolyline6 "qlvcbAwspp~@\x7dAxA"
        = .ok [{ lat := 35204825 / 1000000, lon := 33317708 / 1000000 },
               { lat := 35204872 / 1000000, lon := 33317663 / 1000000 }] := by
  constructor
  · intro s cs h
    rw [specDecode6] at h
    cases hp : specDeltaPairs ((strBytes s).length + 1) (strBytes s) with
    | none => rw [hp] at h; exact absurd h (by simp)
    | some ps =>
        rw [hp] at h
        simp only [Option.map_some', Option.some.injEq] at h
        rw [DecodeValhallaPolyline6,
          specDeltaPairs_decodeLoop ((strBytes s).length + 1) (strBytes s) (by omega) ps hp 0 0, h]
  · rfl

/-- Witness for C6: the hypothesis holds at the two-coordinate string
"A@?@", and the decoder agrees with the spec-side algorithm there. -/
theorem polyline6_refines_spec_witness :
    specDecode6 "A@?@" = some [{ lat := 1 / 1000000, lon := -1 / 1000000 },
                               { lat := 1 / 1000000, lon := -2 / 1000000 }]
    ∧ DecodeValhallaPolyline6 "A@?@"
        = .ok [{ lat := 1 / 1000000, lon := -1 / 1000000 },
               { lat := 1 / 1000000, lon := -2 / 1000000 }] :=
  ⟨rfl, polyline6_refines_spec.1 "A@?@" _ rfl⟩

end Util

namespace Websockets

/-- C4: a broadcast report update is written exactly to the connections
currently in the registry whose stored coordinate passes the planar
squared-distance test against the origin and radius; a connection failing
the test, or absent from the registry, receives nothing. -/
theorem broadcast_proximity_filter :
    ∀ (writeOk : Nat → Bool) (manager : WebSocketManager)
      (reportLat reportLon radius : ℚ) (cid : Nat),
      cid ∈ (BroadcastReportUpdate writeOk manager reportLat reportLon radius).2
        ↔ ∃ c, c ∈ manager.clients ∧ c.connId = cid
            ∧ (c.latitude - reportLat) ^ 2 + (c.longitude - reportLon) ^ 2 ≤ radius ^ 2 := by
  intro writeOk manager reportLat reportLon radius cid
  simp only [BroadcastReportUpdate, List.mem_map, List.mem_filter, isNearby,
    decide_eq_true_eq, pow_two]
  constructor
  · rintro ⟨c, ⟨hc, hle⟩, rfl⟩
    exact ⟨c, hc, rfl, hle⟩
  · rintro ⟨c, hc, rfl, hle⟩
    exact ⟨c, ⟨hc, hle⟩, rfl⟩

/-- A registered client used by the C5 counterexample. -/
def failClient : Client := { connId := 1, userID := "u1", latitude := 0, longitude := 0 }

/-- A registry holding only `failClient`. -/
def failManager : WebSocketManager := { clients := [failClient] }

/-- Counterexample to C5 as stated: in `BroadcastReportUpdate` the write to
connection 1 is attempted (it is nearby) while every transport write fails,
yet the registry afterwards still contains the connection — the failure
does not remove it. -/
theorem broadcastReportUpdate_keeps_failed_counterexample :
    failClient.connId ∈ (BroadcastReportUpdate (fun _ => false) failManager 0 0 1).2
    ∧ (BroadcastReportUpdate (fun _ => false) failManager 0 0 1).1 = failManager := by
  constructor
  · have h2 : (BroadcastReportUpdate (fun _ => false) failManager 0 0 1).2 = [1] := by
      simp [BroadcastReportUpdate, failManager, failClient, isNearby]
    rw [h2]
    simp [failClient]
  · rfl

/-- C5 (amended): a write failure removes the connection only in the `Run`
control loop's broadcast dispatch — there the post-broadcast registry is
exactly the clients whose write succeeded, so a failing connection is
absent from the state used by the next broadcast — while
`BroadcastReportUpdate` discards write errors and always leaves the
registry unchanged. -/
theorem writeFailure_removal_split :
    ∀ (writeOk : Nat → Bool) (manager : WebSocketManager),
      ((runBroadcastCase writeOk manager).1.clients
          = manager.clients.filter (fun c => writeOk c.connId))
      ∧ (∀ c, c ∈ manager.clients → writeOk c.connId = false →
            c ∉ (runBroadcastCase writeOk manager).1.clients)
      ∧ (∀ (reportLat reportLon radius : ℚ),
            (BroadcastReportUpdate writeOk manager reportLat reportLon radius).1 = manager) := by
  intro writeOk manager
  refine ⟨runBroadcastCase_clients writeOk manager, ?_, fun _ _ _ => rfl⟩
  intro c hc hw hmem
  rw [runBroadcastCase_clients] at hmem
  have hfilter := List.of_mem_filter hmem
  rw [hw] at hfilter
  exact absurd hfilter (by simp)

/-- A client whose transport write fails in the C5 witness. -/
def wClient1 : Client := { connId := 1, userID := "a", latitude := 0, longitude := 0 }

/-- A client whose transport write succeeds in the C5 witness. -/
def wClient2 : Client := { connId := 2, userID := "b", latitude := 5, longitude := 5 }

/-- The two-client registry of the C5 witness. -/
def wManager : WebSocketManager := { clients := [wClient1, wClient2] }

/-- Witness for C5 (amended): after a `Run`-loop broadcast in which only
connection 2's write succeeds, the registry is exactly `[wClient2]` and the
failed connection 1 is gone. -/
theorem writeFailure_removal_split_witness :
    ((runBroadcastCase (fun id => id == 2) wManager).1.clients = [wClient2])
    ∧ wClient1 ∉ (runBroadcastCase (fun id => id == 2) wManager).1.clients := by
  have h := writeFailure_removal_split (fun id => id == 2) wManager
  constructor
  · rw [h.1]
    decide
  · exact h.2.1 wClient1 (by decide) (by decide)

end Websockets

namespace Mapbox

noncomputable section

open scoped Classical

/-- C9: the haversine distance of `calculateDistance` (built on the mean
Earth radius 6371000 m) is symmetric in its two coordinates, and the
distance from any coordinate to itself is exactly 0. -/
theorem haversine_symm_self :
    (∀ lat1 lng1 lat2 lng2 : ℝ,
        calculateDistance lat1 lng1 lat2 lng2 = calculateDistance lat2 lng2 lat1 lng1)
    ∧ (∀ lat lng : ℝ, calculateDistance lat lng lat lng = 0) :=
  ⟨fun lat1 lng1 lat2 lng2 => (calculateDistance_symm lat1 lng1 lat2 lng2).symm,
   calculateDistance_self⟩

/-- C8: a snap request with an empty location list is rejected with the
"no locations provided" error before either snapping tier runs — the result
does not depend on the map-matching collaborator `fetch` — for every
configured client (non-empty API key). -/
theorem emptyLocations_invalid_input :
    ∀ (apiKey : String) (fetch : Except String MapMatchingResponse)
      (req : LocationSnapRequest),
      apiKey ≠ "" → req.locations = [] →
      SnapLocationToRoad apiKey fetch req = .error "no locations provided" := by
  intro apiKey fetch req hkey hloc
  rw [SnapLocationToRoad, if_neg hkey, if_pos hloc]

/-- A canonical collaborator response used by several witnesses: an "Ok"
code with no matchings and no tracepoints. -/
def okEmptyFetch : Except String MapMatchingResponse :=
  .ok { matchings := [], tracepoints := [], code := "Ok" }

/-- Witness for C8: the concrete empty request with a set API key. -/
theorem emptyLocations_invalid_input_witness :
    ("token" ≠ "")
    ∧ SnapLocationToRoad "token" okEmptyFetch { locations := [] }
        = .error "no locations provided" :=
  ⟨by decide, emptyLocations_invalid_input "token" okEmptyFetch { locations := [] }
    (by decide) rfl⟩

/-- C2: in the route tier, the aggregate confidence is the arithmetic mean
over the input points of `max 0 (1 - d/snapRadius)`, where `d` is the
minimum haversine distance from the point to the route's vertices (shown to
be a member of, and a lower bound of, the vertex distances); a point
coincident with some route vertex has per-point confidence exactly 1. -/
theorem routeTier_confidence_spec :
    ∀ (req : LocationSnapRequest) (rg : LineString),
      0 < req.snapRadius → validVertices rg ≠ [] →
      ((snapToRoute req rg).confidence
          = (req.locations.map (fun loc =>
              max 0 (1 - minRouteDistance loc rg / (req.snapRadius : ℝ)))).sum
            / (req.locations.length : ℝ))
      ∧ (∀ loc : LocationPoint,
            minRouteDistance loc rg ∈ vertexDistances loc rg
            ∧ ∀ x ∈ vertexDistances loc rg, minRouteDistance loc rg ≤ x)
      ∧ (∀ (loc : LocationPoint) (v : ℝ × ℝ), v ∈ validVertices rg →
            loc.latitude = v.2 → loc.longitude = v.1 →
            calculateRouteSnapConfidence (minRouteDistance loc rg) req.snapRadius = 1) := by
  intro req rg hr hv
  refine ⟨?_, ?_, ?_⟩
  · have hpt : ∀ loc : LocationPoint,
        calculateRouteSnapConfidence (findNearestPointOnRoute loc rg).2 req.snapRadius
          = max 0 (1 - minRouteDistance loc rg / (req.snapRadius : ℝ)) := by
      intro loc
      rw [findNearest_snd loc rg hv,
        calculateRouteSnapConfidence_eq_max _ _ (minRouteDistance_nonneg loc rg hv) hr]
    simp [snapToRoute, hpt]
  · intro loc
    exact ⟨minRouteDistance_mem loc rg hv, fun x hx => minRouteDistance_le loc rg x hx⟩
  · intro loc v hvv hlat hlng
    have hd0 : calculateDistance loc.latitude loc.longitude v.2 v.1 = 0 := by
      rw [hlat, hlng]
      exact calculateDistance_self _ _
    have hmem : (0 : ℝ) ∈ vertexDistances loc rg := by
      rw [vertexDistances]
      exact List.mem_map.mpr ⟨v, hvv, hd0⟩
    have hzero : minRouteDistance loc rg = 0 :=
      le_antisymm (minRouteDistance_le loc rg 0 hmem) (minRouteDistance_nonneg loc rg hv)
    have hrpos : (0 : ℝ) < (req.snapRadius : ℝ) := by exact_mod_cast hr
    rw [hzero, calculateRouteSnapConfidence, if_neg (not_lt.mpr hrpos.le)]
    simp

end

end Mapbox

namespace Mapbox

noncomputable section

open scoped Classical

/-- Evaluation of `findNearestPointOnRoute` on a single-vertex route. -/
theorem findNearest_single (loc : LocationPoint) (lng lat : ℝ) :
    findNearestPointOnRoute loc { coordinates := [[lng, lat]] }
      = ({ latitude := lat, longitude := lng, timestamp := loc.timestamp,
           accuracy := loc.accuracy, heading := loc.heading },
         calculateDistance loc.latitude loc.longitude lat lng) := by
  have h : nearestFold loc [[lng, lat]] none
      = some ({ latitude := lat, longitude := lng, timestamp := loc.timestamp,
                accuracy := loc.accuracy, heading := loc.heading },
              calculateDistance loc.latitude loc.longitude lat lng) := by
    simp [nearestFold]
  rw [findNearestPointOnRoute]
  simp only [h]

/-- The gate structure of `SnapLocationToRoad` when a non-empty route
geometry is attached: strictly above 0.6 the route-tier result is returned
as-is (for every collaborator `fetch`), at or below 0.6 the request falls
through to the road tier. -/
theorem snapLocation_route_cases (apiKey : String)
    (fetch : Except String MapMatchingResponse) (req : LocationSnapRequest)
    (rg : LineString) (hkey : apiKey ≠ "") (hloc : req.locations ≠ [])
    (hrg : req.routeGeometry = some rg) (hne : rg.coordinates ≠ []) :
    (0.6 < (snapToRoute (setDefaults req) rg).confidence →
        SnapLocationToRoad apiKey fetch req
          = .ok { snapToRoute (setDefaults req) rg with snapType := "route" })
    ∧ ((snapToRoute (setDefaults req) rg).confidence ≤ 0.6 →
        SnapLocationToRoad apiKey fetch req = roadFallback fetch (setDefaults req)) := by
  have hrg2 : (setDefaults req).routeGeometry = some rg := hrg
  have hlen : 0 < rg.coordinates.length := List.length_pos.mpr hne
  constructor
  · intro hconf
    rw [SnapLocationToRoad, if_neg hkey, if_neg hloc]
    simp only [hrg2, if_pos hlen, if_pos hconf]
  · intro hconf
    rw [SnapLocationToRoad, if_neg hkey, if_neg hloc]
    simp only [hrg2, if_pos hlen, if_neg (not_lt.mpr hconf)]

/-- `snapToRoute` reads only the locations and the snap radius of the
request. -/
theorem snapToRoute_congr (req1 req2 : LocationSnapRequest) (rg : LineString)
    (h1 : req1.locations = req2.locations) (h2 : req1.snapRadius = req2.snapRadius) :
    snapToRoute req1 rg = snapToRoute req2 rg := by
  rw [snapToRoute, snapToRoute, h1, h2]

end

end Mapbox

namespace Mapbox

noncomputable section

open scoped Classical

/-- A point coincident with the route vertex used below. -/
def pNear : LocationPoint := { latitude := 0, longitude := 0 }

/-- A point a quarter of the Earth away from the route vertex. -/
def pFar : LocationPoint := { latitude := 0, longitude := 90 }

/-- A single-vertex route geometry at the origin. -/
def originRoute : LineString := { coordinates := [[0, 0]] }

/-- The second component of `findNearestPointOnRoute` against the origin
route is the haversine distance to the origin. -/
theorem findNearest_origin_snd (loc : LocationPoint) :
    (findNearestPointOnRoute loc originRoute).2
      = calculateDistance loc.latitude loc.longitude 0 0 :=
  congrArg Prod.snd (findNearest_single loc 0 0)

/-- Per-point route confidence of the coincident point. -/
theorem conf_pNear :
    calculateRouteSnapConfidence
      (calculateDistance pNear.latitude pNear.longitude 0 0) 25 = 1 := by
  have h : calculateDistance pNear.latitude pNear.longitude 0 0 = 0 :=
    calculateDistance_self 0 0
  rw [h, calculateRouteSnapConfidence, if_neg (by norm_num)]
  norm_num

/-- Per-point route confidence of the far point is 0: its distance exceeds
the 25 m radius. -/
theorem conf_pFar :
    calculateRouteSnapConfidence
      (calculateDistance pFar.latitude pFar.longitude 0 0) 25 = 0 := by
  have h : calculateDistance pFar.latitude pFar.longitude 0 0 = 6371000 * Real.pi / 2 :=
    calculateDistance_quarter_rev
  rw [h, calculateRouteSnapConfidence, if_pos (by push_cast; exact quarter_gt_25)]

/-- The five-point request whose route-tier aggregate confidence is exactly
0.6: three points coincident with the route vertex, two a quarter of the
Earth away. -/
def boundaryReq : LocationSnapRequest :=
  { locations := [pNear, pNear, pNear, pFar, pFar],
    routeGeometry := some originRoute, snapRadius := 25 }

/-- The route-tier aggregate confidence of `boundaryReq` is exactly 3/5. -/
theorem boundaryReq_confidence :
    (snapToRoute (setDefaults boundaryReq) originRoute).confidence = 3 / 5 := by
  rw [snapToRoute]
  simp only [show (setDefaults boundaryReq).locations = [pNear, pNear, pNear, pFar, pFar]
      from rfl,
    show (setDefaults boundaryReq).snapRadius = (25 : ℤ) from rfl,
    findNearest_origin_snd, List.map_cons, List.map_nil, List.sum_cons, List.sum_nil,
    conf_pNear, conf_pFar, List.length_cons, List.length_nil]
  norm_num

/-- Counterexample to C1 as stated: at aggregate route confidence exactly
0.6 (which satisfies "at least 0.6") the snapper does not return the
route-tier result — it falls through to the road tier and answers with
`snapType = "road"`.  The Go gate is strict (`> 0.6`). -/
theorem routeGate_boundary_counterexample :
    (0.6 : ℝ) ≤ (snapToRoute (setDefaults boundaryReq) originRoute).confidence
    ∧ ∃ resp, SnapLocationToRoad "k" okEmptyFetch boundaryReq = .ok resp
        ∧ resp.snapType = "road" := by
  have hcases := snapLocation_route_cases "k" okEmptyFetch boundaryReq originRoute
    (by simp) (by simp [boundaryReq]) rfl (by simp [originRoute])
  have hfall := hcases.2 (by rw [boundaryReq_confidence]; norm_num)
  constructor
  · rw [boundaryReq_confidence]; norm_num
  · refine ⟨{ processMapMatchingResponse (setDefaults boundaryReq).locations
        { matchings := [], tracepoints := [], code := "Ok" } with snapType := "road" },
      ?_, rfl⟩
    rw [hfall, roadFallback]
    simp [snapToRoadNetwork, okEmptyFetch,
      show (setDefaults boundaryReq).oppositeSide = false from rfl]

/-- C1 (amended): with a non-empty route geometry attached, the route-tier
result (with `snapType = "route"`) is returned — and the road-network tier
is never consulted, whatever collaborator answer `fetch` holds — exactly
when the aggregate route confidence is strictly greater than 0.6; at or
below 0.6 the request falls through to the road-network tier, regardless of
any individual point's per-point confidence. -/
theorem routeGate_strict :
    ∀ (apiKey : String) (fetch : Except String MapMatchingResponse)
      (req : LocationSnapRequest) (rg : LineString),
      apiKey ≠ "" → req.locations ≠ [] → req.routeGeometry = some rg →
      rg.coordinates ≠ [] →
      (0.6 < (snapToRoute (setDefaults req) rg).confidence →
          SnapLocationToRoad apiKey fetch req
            = .ok { snapToRoute (setDefaults req) rg with snapType := "route" })
      ∧ ((snapToRoute (setDefaults req) rg).confidence ≤ 0.6 →
          SnapLocationToRoad apiKey fetch req = roadFallback fetch (setDefaults req)) :=
  fun apiKey fetch req rg hkey hloc hrg hne =>
    snapLocation_route_cases apiKey fetch req rg hkey hloc hrg hne

/-- The one-point request whose route-tier confidence is 1. -/
def gateReq : LocationSnapRequest :=
  { locations := [pNear], routeGeometry := some originRoute, snapRadius := 25 }

/-- The route-tier aggregate confidence of `gateReq` is 1. -/
theorem gateReq_confidence :
    (snapToRoute (setDefaults gateReq) originRoute).confidence = 1 := by
  rw [snapToRoute]
  simp only [show (setDefaults gateReq).locations = [pNear] from rfl,
    show (setDefaults gateReq).snapRadius = (25 : ℤ) from rfl,
    findNearest_origin_snd, List.map_cons, List.map_nil, List.sum_cons, List.sum_nil,
    conf_pNear, List.length_cons, List.length_nil]
  norm_num

/-- Witness for C1 (amended): at confidence 1 > 0.6 the route-tier result
is returned unchanged. -/
theorem routeGate_strict_witness :
    (0.6 : ℝ) < (snapToRoute (setDefaults gateReq) originRoute).confidence
    ∧ SnapLocationToRoad "k" okEmptyFetch gateReq
        = .ok { snapToRoute (setDefaults gateReq) originRoute with snapType := "route" } := by
  have hconf : (0.6 : ℝ) < (snapToRoute (setDefaults gateReq) originRoute).confidence := by
    rw [gateReq_confidence]; norm_num
  exact ⟨hconf,
    (routeGate_strict "k" okEmptyFetch gateReq originRoute (by simp) (by simp [gateReq])
      rfl (by simp [originRoute])).1 hconf⟩

end

end Mapbox

namespace Mapbox

noncomputable section

open scoped Classical

/-- The one-point request of the C2 witness. -/
def c2Req : LocationSnapRequest := { locations := [pNear], snapRadius := 25 }

/-- Witness for C2 at a concrete request: one point coincident with the
single route vertex, radius 25. -/
theorem routeTier_confidence_spec_witness :
    ((0 : ℤ) < c2Req.snapRadius) ∧ validVertices originRoute ≠ []
    ∧ (snapToRoute c2Req originRoute).confidence
        = ((c2Req.locations.map (fun loc =>
            max 0 (1 - minRouteDistance loc originRoute / (c2Req.snapRadius : ℝ)))).sum
          / (c2Req.locations.length : ℝ)) := by
  have h1 : (0 : ℤ) < c2Req.snapRadius := by decide
  have h2 : validVertices originRoute ≠ [] := by simp [validVertices, originRoute]
  exact ⟨h1, h2, (routeTier_confidence_spec c2Req originRoute h1 h2).1⟩

/-- A point at the origin heading due east (90°). -/
def pHead : LocationPoint := { latitude := 0, longitude := 0, heading := 90 }

/-- C3 (amended): the 15 m opposite-side displacement is applied only on
the road-network path — `roadFallback` adjusts the road result exactly when
`oppositeSide` is set — where every point with a nonzero heading is
displaced by the perpendicular (heading + 90°, wrapped at 360) planar
offset and its snap distance grows by exactly 15 m, while points with a
zero heading are left unmodified; a route-tier success is returned with no
opposite-side adjustment even when `oppositeSide` is set. -/
theorem oppositeSide_roadTier_only :
    (∀ (fetch : Except String MapMatchingResponse) (req : LocationSnapRequest)
        (base : LocationSnapResponse),
        snapToRoadNetwork fetch req = .ok base →
        roadFallback fetch req
          = .ok (if req.oppositeSide
              then adjustForOppositeSide { base with snapType := "road" }
              else { base with snapType := "road" }))
    ∧ (∀ (resp : LocationSnapResponse) (i : Nat),
        (adjustForOppositeSide resp).snappedLocations[i]?
          = (resp.snappedLocations[i]?).map (fun sl =>
              if sl.original.heading ≠ 0 then
                { sl with
                  snapped := { sl.snapped with
                    latitude := sl.snapped.latitude
                      + 15 * Real.cos ((if 360 ≤ sl.original.heading + 90
                          then sl.original.heading + 90 - 360
                          else sl.original.heading + 90) * Real.pi / 180) / 111111,
                    longitude := sl.snapped.longitude
                      + 15 * Real.sin ((if 360 ≤ sl.original.heading + 90
                          then sl.original.heading + 90 - 360
                          else sl.original.heading + 90) * Real.pi / 180)
                        / (111111 * Real.cos (sl.snapped.latitude * Real.pi / 180)) },
                  snapDistance := sl.snapDistance + 15 }
              else sl))
    ∧ (∀ (apiKey : String) (fetch : Except String MapMatchingResponse)
        (req : LocationSnapRequest) (rg : LineString),
        apiKey ≠ "" → req.locations ≠ [] → req.routeGeometry = some rg →
        rg.coordinates ≠ [] → 0.6 < (snapToRoute (setDefaults req) rg).confidence →
        SnapLocationToRoad apiKey fetch req
          = .ok { snapToRoute (setDefaults req) rg with snapType := "route" }) := by
  refine ⟨?_, ?_, ?_⟩
  · intro fetch req base h
    rw [roadFallback]
    simp only [h]
  · intro resp i
    simp only [adjustForOppositeSide, List.getElem?_map]
  · intro apiKey fetch req rg hkey hloc hrg hne hconf
    exact (snapLocation_route_cases apiKey fetch req rg hkey hloc hrg hne).1 hconf

/-- The road-tier opposite-side request of the C3 witness. -/
def roadReq : LocationSnapRequest :=
  { locations := [pHead], snapRadius := 25, oppositeSide := true }

/-- The collaborator answer of the C3 witness: one matching with confidence
0.8, one tracepoint matched at the origin. -/
def okOneFetch : Except String MapMatchingResponse :=
  .ok { matchings := [{ confidence := 0.8 }],
        tracepoints := [{ location := some (0, 0) }], code := "Ok" }

/-- The processed road-tier base result of the C3 witness. -/
def c3Base : LocationSnapResponse :=
  processMapMatchingResponse (setDefaults roadReq).locations
    { matchings := [{ confidence := 0.8 }],
      tracepoints := [{ location := some (0, 0) }], code := "Ok" }

/-- The single snapped location inside `c3Base`. -/
def c3Entry : SnappedLocation :=
  { original := pHead,
    snapped := { latitude := 0, longitude := 0, timestamp := none,
                 accuracy := 0, heading := 90 },
    snapDistance := 0, onRoute := true }

theorem c3Base_snapped : c3Base.snappedLocations = [c3Entry] := by
  have hd : calculateDistance 0 0 0 0 = 0 := calculateDistance_self 0 0
  simp [c3Base, c3Entry, processMapMatchingResponse, List.enum, List.enumFrom, pHead, hd]

/-- Witness for C3 (amended): on the road path with `oppositeSide` set and
a 90° heading, the adjustment runs and the reported snap distance grows
from 0 to exactly 15. -/
theorem oppositeSide_roadTier_only_witness :
    (setDefaults roadReq).oppositeSide = true
    ∧ roadFallback okOneFetch (setDefaults roadReq)
        = .ok (if (setDefaults roadReq).oppositeSide
            then adjustForOppositeSide { c3Base with snapType := "road" }
            else { c3Base with snapType := "road" })
    ∧ (adjustForOppositeSide { c3Base with snapType := "road" }).snappedLocations.map
        (fun sl => sl.snapDistance) = [15] := by
  have hbase : snapToRoadNetwork okOneFetch (setDefaults roadReq) = .ok c3Base := by
    rw [okOneFetch]
    simp [snapToRoadNetwork, c3Base]
  refine ⟨rfl, oppositeSide_roadTier_only.1 okOneFetch (setDefaults roadReq) c3Base hbase, ?_⟩
  have h90 : c3Entry.original.heading ≠ 0 := by
    simp only [c3Entry, pHead]
    norm_num
  simp only [adjustForOppositeSide, c3Base_snapped, List.map_cons, List.map_nil,
    if_pos h90]
  norm_num [c3Entry]

end

end Mapbox

namespace Mapbox

noncomputable section

open scoped Classical

/-- The route-tier opposite-side request of the C3 counterexample. -/
def oppositeReq : LocationSnapRequest :=
  { locations := [pHead], routeGeometry := some originRoute, snapRadius := 25,
    oppositeSide := true }

/-- `oppositeReq` with the opposite-side flag cleared. -/
def plainReq : LocationSnapRequest :=
  { locations := [pHead], routeGeometry := some originRoute, snapRadius := 25,
    oppositeSide := false }

/-- The route-tier confidence of the heading-carrying point at the origin. -/
theorem oppositeReq_confidence :
    (snapToRoute (setDefaults oppositeReq) originRoute).confidence = 1 := by
  have hpH : calculateRouteSnapConfidence
      (calculateDistance pHead.latitude pHead.longitude 0 0) 25 = 1 := conf_pNear
  rw [snapToRoute]
  simp only [show (setDefaults oppositeReq).locations = [pHead] from rfl,
    show (setDefaults oppositeReq).snapRadius = (25 : ℤ) from rfl,
    findNearest_origin_snd, List.map_cons, List.map_nil, List.sum_cons, List.sum_nil,
    hpH, List.length_cons, List.length_nil]
  norm_num

/-- Counterexample to C3 as stated: the route tier succeeds with
`oppositeSide = true` and a point carrying a heading, yet the result is
identical to the non-opposite-side result — the snapped coordinate is not
displaced and the snap distance stays 0 instead of growing by 15 m. -/
theorem oppositeSide_routeTier_counterexample :
    oppositeReq.oppositeSide = true
    ∧ pHead.heading ≠ 0
    ∧ SnapLocationToRoad "k" okEmptyFetch oppositeReq
        = SnapLocationToRoad "k" okEmptyFetch plainReq
    ∧ ∃ resp, SnapLocationToRoad "k" okEmptyFetch oppositeReq = .ok resp
        ∧ resp.snapType = "route"
        ∧ resp.snappedLocations.map (fun sl => sl.snapDistance) = [0] := by
  have heq : snapToRoute (setDefaults oppositeReq) originRoute
      = snapToRoute (setDefaults plainReq) originRoute :=
    snapToRoute_congr _ _ _ rfl rfl
  have hconfO : (0.6 : ℝ) < (snapToRoute (setDefaults oppositeReq) originRoute).confidence := by
    rw [oppositeReq_confidence]; norm_num
  have hconfP : (0.6 : ℝ) < (snapToRoute (setDefaults plainReq) originRoute).confidence := by
    rw [← heq, oppositeReq_confidence]; norm_num
  have hrouteO := (snapLocation_route_cases "k" okEmptyFetch oppositeReq originRoute
    (by simp) (by simp [oppositeReq]) rfl (by simp [originRoute])).1 hconfO
  have hrouteP := (snapLocation_route_cases "k" okEmptyFetch plainReq originRoute
    (by simp) (by simp [plainReq]) rfl (by simp [originRoute])).1 hconfP
  refine ⟨rfl, by simp [pHead], ?_, ?_⟩
  · rw [hrouteO, hrouteP, heq]
  · refine ⟨{ snapToRoute (setDefaults oppositeReq) originRoute with snapType := "route" },
      hrouteO, rfl, ?_⟩
    have hd : calculateDistance pHead.latitude pHead.longitude 0 0 = 0 :=
      calculateDistance_self 0 0
    rw [snapToRoute]
    simp only [show (setDefaults oppositeReq).locations = [pHead] from rfl,
      findNearest_origin_snd, List.map_cons, List.map_nil, hd]

end

end Mapbox
